import Mathlib

/-!
# userSegment: the segment-membership handlers of `cmd/main.go`

A shallow embedding of the handlers `deleteSegment`, `addUserToSegment` and
`getActiveSegments` over an explicit store.

Modelling conventions
* The package-level handle `db` is taken as an open handle on a store with the two tables
  that `main` creates: `users (id, segments JSON)` and `segments (slug)`; how `main` opens
  and assigns the handle is not part of the model. A handler is a function of the store
  state, its route variable and its request body; it returns the response it writes (status
  and body) and the store state it leaves.
* A JSON text is represented by the document it denotes (`Json`); bytes that are not a JSON
  text are `none`. A `JSON` column holds a document or SQL `NULL`, so a stored blob is an
  `Option Json` as well.
* `encoding/json` is modelled at the level of documents: `json.Unmarshal` into the Go types
  of this program (with its first-error-is-kept, decode-in-place behaviour) and
  `json.Marshal` of `[]Segment`. A JSON array decoded into a slice replaces the slice, as
  the package documents.
* A statement sent to the store either goes through or the driver reports an error
  (connection lost, constraint violated, ...); that outcome is an input of the handler
  (`readFault`, `writeFault`, `fault`), `none` meaning that the statement went through.
  Keys are compared by string equality.
-/

namespace UserSegment

/-! ## Data model -/

/-- Go `type Segment struct { Slug string }`, JSON key `slug`. -/
structure Segment where
  Slug : String
deriving DecidableEq, Repr

/-- A Go slice value: `nil`, or a (possibly empty) sequence of elements. -/
inductive GoSlice (α : Type) where
  | nil
  | elems (xs : List α)
deriving DecidableEq, Repr

/-- The elements a `range` loop over the slice visits. -/
def GoSlice.toList {α : Type} : GoSlice α → List α
  | .nil => []
  | .elems xs => xs

/-- Go `append(s, x)`. -/
def GoSlice.append {α : Type} (s : GoSlice α) (x : α) : GoSlice α :=
  .elems (s.toList ++ [x])

/-- Go `type User struct { ID string; Segments []Segment }`, JSON keys `id`, `segments`. -/
structure User where
  ID : String
  Segments : GoSlice Segment
deriving DecidableEq, Repr

/-- The anonymous request struct of `addUserToSegment`, JSON keys `add`, `remove`. -/
structure RequestData where
  ToAdd : GoSlice String
  ToRemove : GoSlice String
deriving DecidableEq, Repr

/-- A JSON document. A number keeps its literal. -/
inductive Json where
  | null
  | bool (b : Bool)
  | num (literal : String)
  | str (s : String)
  | arr (items : List Json)
  | obj (members : List (String × Json))

/-- The Go types that `json.Unmarshal` is asked to fill in this program. -/
inductive GoType where
  | user
  | segment
  | segmentSlice
  | string
  | stringSlice
  | requestData
deriving DecidableEq, Repr

/-- The errors a handler can meet. -/
inductive Err where
  /-- The bytes are not a JSON text (`*json.SyntaxError`, `io.EOF`). -/
  | invalidJSON
  /-- A `*json.UnmarshalTypeError`: JSON value of kind `value` met for Go type `target`. -/
  | unmarshalTypeError (value : String) (target : GoType)
  /-- The `sql.ErrNoRows` of `Scan`. -/
  | errNoRows
  /-- Any other error reported by `database/sql`. -/
  | store (msg : String)
deriving DecidableEq, Repr

/-! ## `encoding/json` on the types of the program -/

/-- The `Value` of an `UnmarshalTypeError` for a JSON value. -/
def Json.kind : Json → String
  | .null => "null"
  | .bool _ => "bool"
  | .num _ => "number"
  | .str _ => "string"
  | .arr _ => "array"
  | .obj _ => "object"

/-- The decoder keeps the first error and goes on (`decodeState.saveError`). -/
def saveError (saved : Option Err) (e : Err) : Option Err :=
  match saved with
  | some s => some s
  | none => some e

/-- Case folding of one rune of a key: ASCII letters, and the two runes that fold to one. -/
def foldRune (c : Char) : Char :=
  if 'a' ≤ c ∧ c ≤ 'z' then Char.ofNat (c.toNat - 32)
  else if c = Char.ofNat 0x17F then 'S'
  else if c = Char.ofNat 0x212A then 'K'
  else c

/-- The folded form of a key. -/
def foldName (s : String) : List Char :=
  s.data.map foldRune

/-- The struct field a JSON key selects: the field of that exact name, else the field whose
name matches under case folding, else none (the member is skipped). -/
def fieldFor (fields : List String) (key : String) : Option String :=
  match fields.find? (fun f => decide (f = key)) with
  | some f => some f
  | none => fields.find? (fun f => decide (foldName f = foldName key))

/-- Decode a JSON value into a Go `string` holding `cur`. -/
def decodeString (cur : String) (j : Json) (saved : Option Err) : String × Option Err :=
  match j with
  | .str s => (s, saved)
  | .null => (cur, saved)
  | other => (cur, saveError saved (.unmarshalTypeError other.kind .string))

/-- Decode a JSON value into a `Segment` holding `cur`. -/
def decodeSegment (cur : Segment) (j : Json) (saved : Option Err) : Segment × Option Err :=
  match j with
  | .null => (cur, saved)
  | .obj members =>
    members.foldl
      (fun acc kv =>
        match fieldFor ["slug"] kv.1 with
        | some _ =>
          let r := decodeString acc.1.Slug kv.2 acc.2
          (⟨r.1⟩, r.2)
        | none => acc)
      (cur, saved)
  | other => (cur, saveError saved (.unmarshalTypeError other.kind .segment))

/-- Decode a JSON value into a slice holding `cur`: `null` gives the nil slice, an array
gives a fresh slice with one element per item, each decoded into the zero value. -/
def decodeSlice {α : Type} (zero : α) (decodeElem : α → Json → Option Err → α × Option Err)
    (target : GoType) (cur : GoSlice α) (j : Json) (saved : Option Err) :
    GoSlice α × Option Err :=
  match j with
  | .null => (.nil, saved)
  | .arr items =>
    let r := items.foldl
      (fun acc item =>
        let e := decodeElem zero item acc.2
        (acc.1 ++ [e.1], e.2))
      (([] : List α), saved)
    (.elems r.1, r.2)
  | other => (cur, saveError saved (.unmarshalTypeError other.kind target))

/-- Decode a JSON value into a `User` holding `cur`. -/
def decodeUser (cur : User) (j : Json) (saved : Option Err) : User × Option Err :=
  match j with
  | .null => (cur, saved)
  | .obj members =>
    members.foldl
      (fun acc kv =>
        match fieldFor ["id", "segments"] kv.1 with
        | some f =>
          if f = "id" then
            let r := decodeString acc.1.ID kv.2 acc.2
            ({ acc.1 with ID := r.1 }, r.2)
          else
            let r := decodeSlice (⟨""⟩ : Segment) decodeSegment .segmentSlice
              acc.1.Segments kv.2 acc.2
            ({ acc.1 with Segments := r.1 }, r.2)
        | none => acc)
      (cur, saved)
  | other => (cur, saveError saved (.unmarshalTypeError other.kind .user))

/-- Decode a JSON value into the request struct holding `cur`. -/
def decodeRequestData (cur : RequestData) (j : Json) (saved : Option Err) :
    RequestData × Option Err :=
  match j with
  | .null => (cur, saved)
  | .obj members =>
    members.foldl
      (fun acc kv =>
        match fieldFor ["add", "remove"] kv.1 with
        | some f =>
          if f = "add" then
            let r := decodeSlice "" decodeString .stringSlice acc.1.ToAdd kv.2 acc.2
            ({ acc.1 with ToAdd := r.1 }, r.2)
          else
            let r := decodeSlice "" decodeString .stringSlice acc.1.ToRemove kv.2 acc.2
            ({ acc.1 with ToRemove := r.1 }, r.2)
        | none => acc)
      (cur, saved)
  | other => (cur, saveError saved (.unmarshalTypeError other.kind .requestData))

/-- The call `json.Unmarshal(segmentsJSON, &user)` on a zero `var user User`. -/
def unmarshalUser (segmentsJSON : Option Json) : Except Err User :=
  match segmentsJSON with
  | none => .error .invalidJSON
  | some j =>
    match decodeUser ⟨"", .nil⟩ j none with
    | (_, some e) => .error e
    | (user, none) => .ok user

/-- The call `json.NewDecoder(r.Body).Decode(&requestData)` on a zero `requestData`; `body` is
the first JSON value of the request body, `none` when the body does not start with one. -/
def decodeRequestBody (body : Option Json) : Except Err RequestData :=
  match body with
  | none => .error .invalidJSON
  | some j =>
    match decodeRequestData ⟨.nil, .nil⟩ j none with
    | (_, some e) => .error e
    | (requestData, none) => .ok requestData

/-- The call `json.Marshal` on a `[]Segment`: a nil slice is encoded as `null`, any other
slice as the array of its `{"slug": ...}` objects. It has no error case for this type. -/
def marshalSegments (segments : GoSlice Segment) : Json :=
  match segments with
  | .nil => .null
  | .elems xs => .arr (xs.map (fun s => .obj [("slug", .str s.Slug)]))

/-! ## The store -/

/-- The value of a `segments JSON` column: a JSON document, or SQL `NULL` (`none`), which
`Scan` turns into no bytes at all. -/
abbrev Blob := Option Json

/-- The two tables created by `main`. -/
structure DB where
  users : List (String × Blob)
  segments : List String

/-- The row `SELECT segments FROM users WHERE id = ?` finds, if any. -/
def selectSegments : List (String × Blob) → String → Option Blob
  | [], _ => none
  | row :: rows, id => if row.1 = id then some row.2 else selectSegments rows id

/-- What `db.QueryRow("SELECT segments FROM users WHERE id = ?", userID).Scan(&segmentsJSON)`
gives: the bytes of the row, `sql.ErrNoRows` without a row, or the error of the driver. -/
def queryRowScan (db : DB) (readFault : Option String) (userID : String) : Except Err Blob :=
  match readFault with
  | some msg => .error (.store msg)
  | none =>
    match selectSegments db.users userID with
    | none => .error .errNoRows
    | some blob => .ok blob

/-- The rows after `INSERT INTO users (id, segments) VALUES (?, ?) ON DUPLICATE KEY UPDATE
segments = ?`: the row of that id gets the new blob, or a row is added. -/
def upsertRow : List (String × Blob) → String → Blob → List (String × Blob)
  | [], id, blob => [(id, blob)]
  | row :: rows, id, blob =>
    if row.1 = id then (row.1, blob) :: rows else row :: upsertRow rows id blob

/-- The upsert statement as one `db.Exec`: it goes through as a whole or not at all. -/
def execUpsert (db : DB) (writeFault : Option String) (userID : String) (blob : Blob) :
    Except Err DB :=
  match writeFault with
  | some msg => .error (.store msg)
  | none => .ok { db with users := upsertRow db.users userID blob }

/-- The statement `DELETE FROM segments WHERE slug = ?` as one `db.Exec`; deleting no row is
not an error. -/
def execDeleteSegment (db : DB) (fault : Option String) (slug : String) : Except Err DB :=
  match fault with
  | some msg => .error (.store msg)
  | none => .ok { db with segments := db.segments.filter (fun s => decide (s ≠ slug)) }

/-! ## Responses -/

/-- What a handler writes as the body. -/
inductive Body where
  | empty
  | errorText (e : Err)
  | json (j : Json)

/-- The status line and body a handler writes. -/
structure Response where
  status : Nat
  body : Body

def StatusOK : Nat := 200
def StatusNoContent : Nat := 204
def StatusBadRequest : Nat := 400
def StatusInternalServerError : Nat := 500

/-- Go `http.Error(w, err.Error(), code)`. -/
def httpError (e : Err) (code : Nat) : Response :=
  ⟨code, .errorText e⟩

/-! ## The handlers -/

/-- The read both user handlers start with (main.go 117-126 and 180-189): the bytes of the
row, the literal `[]` when `Scan` reports `sql.ErrNoRows`, and any other error as it is. -/
def scanSegmentsJSON (db : DB) (readFault : Option String) (userID : String) :
    Except Err Blob :=
  match queryRowScan db readFault userID with
  | .error .errNoRows => .ok (some (.arr []))
  | .error e => .error e
  | .ok segmentsJSON => .ok segmentsJSON

/-- Handler `deleteSegment` (main.go 84-98). -/
def deleteSegment (db : DB) (fault : Option String) (slug : String) : Response × DB :=
  match execDeleteSegment db fault slug with
  | .error e => (httpError e StatusInternalServerError, db)
  | .ok db' => (⟨StatusNoContent, .empty⟩, db')

/-- The loop of main.go 137-139: append one `Segment` per slug of `ToAdd`. -/
def appendLoop (segments : GoSlice Segment) (toAdd : List String) : GoSlice Segment :=
  toAdd.foldl (fun acc slug => acc.append ⟨slug⟩) segments

/-- The inner loop of main.go 144-150: scan `ToRemove` until the slug is met. -/
def shouldRemove (userSegment : Segment) : List String → Bool
  | [] => false
  | slug :: rest => if userSegment.Slug = slug then true else shouldRemove userSegment rest

/-- The loop of main.go 142-154, starting from `var newSegments []Segment`. -/
def removeLoop (segments : List Segment) (toRemove : List String) : GoSlice Segment :=
  segments.foldl
    (fun newSegments userSegment =>
      if shouldRemove userSegment toRemove then newSegments
      else newSegments.append userSegment)
    .nil

/-- The value of `newSegments` at main.go 156, from the decoded current list and the decoded
request. -/
def newSegments (current : GoSlice Segment) (requestData : RequestData) : GoSlice Segment :=
  removeLoop (appendLoop current requestData.ToAdd.toList).toList requestData.ToRemove.toList

/-- Handler `addUserToSegment` (main.go 100-172). -/
def addUserToSegment (db : DB) (readFault writeFault : Option String) (userID : String)
    (body : Option Json) : Response × DB :=
  match decodeRequestBody body with
  | .error e => (httpError e StatusBadRequest, db)
  | .ok requestData =>
    match scanSegmentsJSON db readFault userID with
    | .error e => (httpError e StatusInternalServerError, db)
    | .ok segmentsJSON =>
      match unmarshalUser segmentsJSON with
      | .error e => (httpError e StatusInternalServerError, db)
      | .ok user =>
        let newSegmentsJSON := marshalSegments (newSegments user.Segments requestData)
        match execUpsert db writeFault userID (some newSegmentsJSON) with
        | .error e => (httpError e StatusInternalServerError, db)
        | .ok db' => (⟨StatusNoContent, .empty⟩, db')

/-- Handler `getActiveSegments` (main.go 174-209). The store is only read. -/
def getActiveSegments (db : DB) (readFault : Option String) (userID : String) : Response :=
  match scanSegmentsJSON db readFault userID with
  | .error e => httpError e StatusInternalServerError
  | .ok segmentsJSON =>
    match unmarshalUser segmentsJSON with
    | .error e => httpError e StatusInternalServerError
    | .ok user => ⟨StatusOK, .json (marshalSegments user.Segments)⟩

/-! ## The delta of the specification -/

/-- The `applyDelta` list of the specification (4.2, steps 2 and 3): the current list followed
by one segment per slug to add, in input order, then only the segments whose slug is not
among the slugs to remove. -/
def specApplyDelta (cur : List Segment) (toAdd toRemove : List String) : List Segment :=
  (cur ++ toAdd.map Segment.mk).filter (fun s => decide (s.Slug ∉ toRemove))

/-! ## Requests and stores used as concrete inputs -/

/-- The request body `{"add": [...], "remove": [...]}` for two slug lists. -/
def requestBody (toAdd toRemove : List String) : Json :=
  .obj [("add", .arr (toAdd.map Json.str)), ("remove", .arr (toRemove.map Json.str))]

/-- The JSON object `{"id": id, "segments": [{"slug": ...}, ...]}` of a user. -/
def userObject (id : String) (slugs : List String) : Json :=
  .obj [("id", .str id),
    ("segments", .arr (slugs.map (fun slug => Json.obj [("slug", .str slug)])))]

/-- A store with no user and no segment. -/
def emptyStore : DB := ⟨[], []⟩

/-- A store whose catalog is `a`, `b` and in which user `u1` has the object blob with the
segments `a`, `b`, `a`. -/
def sampleStore : DB := ⟨[("u1", some (userObject "u1" ["a", "b", "a"]))], ["a", "b"]⟩

/-! ## Lemmas on the loops -/

theorem appendLoop_toList (segments : GoSlice Segment) (toAdd : List String) :
    (appendLoop segments toAdd).toList = segments.toList ++ toAdd.map Segment.mk := by
  unfold appendLoop
  induction toAdd generalizing segments with
  | nil => simp
  | cons slug rest ih =>
    rw [List.foldl_cons, ih]
    simp [GoSlice.append, GoSlice.toList]

theorem shouldRemove_iff (userSegment : Segment) (toRemove : List String) :
    shouldRemove userSegment toRemove = true ↔ userSegment.Slug ∈ toRemove := by
  induction toRemove with
  | nil => simp [shouldRemove]
  | cons slug rest ih =>
    by_cases h : userSegment.Slug = slug
    · simp [shouldRemove, h]
    · simp [shouldRemove, h, ih]

theorem removeLoop_foldl_toList (toRemove : List String) (segments : List Segment)
    (acc : GoSlice Segment) :
    (segments.foldl
      (fun newSegments userSegment =>
        if shouldRemove userSegment toRemove then newSegments
        else newSegments.append userSegment) acc).toList
      = acc.toList ++ segments.filter (fun s => decide (s.Slug ∉ toRemove)) := by
  induction segments generalizing acc with
  | nil => simp
  | cons seg rest ih =>
    rw [List.foldl_cons, ih]
    by_cases h : seg.Slug ∈ toRemove
    · simp [(shouldRemove_iff seg toRemove).mpr h, h]
    · have hf : shouldRemove seg toRemove = false := by
        cases hs : shouldRemove seg toRemove with
        | false => rfl
        | true => exact absurd ((shouldRemove_iff seg toRemove).mp hs) h
      simp [hf, h, GoSlice.append, GoSlice.toList]

theorem removeLoop_toList (segments : List Segment) (toRemove : List String) :
    (removeLoop segments toRemove).toList
      = segments.filter (fun s => decide (s.Slug ∉ toRemove)) := by
  unfold removeLoop
  rw [removeLoop_foldl_toList]
  simp [GoSlice.toList]

theorem newSegments_toList (current : GoSlice Segment) (requestData : RequestData) :
    (newSegments current requestData).toList
      = specApplyDelta current.toList requestData.ToAdd.toList requestData.ToRemove.toList := by
  unfold newSegments specApplyDelta
  rw [removeLoop_toList, appendLoop_toList]

/-- The success path of `addUserToSegment`: with the request decoded, the blob read and
decoded, and the upsert gone through, the answer is 204 and the row of the user holds the
encoding of `newSegments`. -/
theorem addUserToSegment_success (db : DB) (readFault : Option String) (userID : String)
    (body : Option Json) (requestData : RequestData) (segmentsJSON : Blob) (user : User)
    (hreq : decodeRequestBody body = .ok requestData)
    (hscan : scanSegmentsJSON db readFault userID = .ok segmentsJSON)
    (huser : unmarshalUser segmentsJSON = .ok user) :
    addUserToSegment db readFault none userID body
      = (⟨StatusNoContent, .empty⟩,
         ⟨upsertRow db.users userID
            (some (marshalSegments (newSegments user.Segments requestData))), db.segments⟩) := by
  simp [addUserToSegment, hreq, hscan, huser, execUpsert]

/-- The loop of main.go 142-154 leaves `newSegments` nil or with at least one element. -/
theorem removeLoop_foldl_nil_or_cons (toRemove : List String) (segments : List Segment)
    (acc : GoSlice Segment)
    (hacc : acc = .nil ∨ ∃ x xs, acc = .elems (x :: xs)) :
    (segments.foldl
      (fun newSegments userSegment =>
        if shouldRemove userSegment toRemove then newSegments
        else newSegments.append userSegment) acc) = .nil
    ∨ ∃ x xs, (segments.foldl
      (fun newSegments userSegment =>
        if shouldRemove userSegment toRemove then newSegments
        else newSegments.append userSegment) acc) = .elems (x :: xs) := by
  induction segments generalizing acc with
  | nil => simpa using hacc
  | cons seg rest ih =>
    rw [List.foldl_cons]
    apply ih
    cases hs : shouldRemove seg toRemove with
    | true => simpa using hacc
    | false =>
      right
      rcases hacc with h | ⟨x, xs, h⟩
      · exact ⟨seg, [], by simp [h, GoSlice.append, GoSlice.toList]⟩
      · exact ⟨x, xs ++ [seg], by simp [h, GoSlice.append, GoSlice.toList]⟩

theorem newSegments_eq_nil (current : GoSlice Segment) (requestData : RequestData)
    (h : (newSegments current requestData).toList = []) :
    newSegments current requestData = .nil := by
  unfold newSegments removeLoop at *
  rcases removeLoop_foldl_nil_or_cons requestData.ToRemove.toList
      (appendLoop current requestData.ToAdd.toList).toList .nil (Or.inl rfl) with h0 | ⟨x, xs, h1⟩
  · exact h0
  · rw [h1] at h
    simp [GoSlice.toList] at h

theorem selectSegments_upsertRow (rows : List (String × Blob)) (id : String) (blob : Blob) :
    selectSegments (upsertRow rows id blob) id = some blob := by
  induction rows with
  | nil => simp [upsertRow, selectSegments]
  | cons row rest ih =>
    by_cases h : row.1 = id
    · simp [upsertRow, selectSegments, h]
    · simp [upsertRow, selectSegments, h, ih]

theorem decodeSlice_strings_foldl (items acc : List String) :
    (items.map Json.str).foldl
      (fun (acc : List String × Option Err) item =>
        ((acc.1 ++ [(decodeString "" item acc.2).1], (decodeString "" item acc.2).2) :
          List String × Option Err))
      (acc, none) = (acc ++ items, none) := by
  induction items generalizing acc with
  | nil => simp
  | cons x rest ih =>
    have hx : decodeString "" (Json.str x) none = (x, none) := rfl
    simp only [List.map_cons, List.foldl_cons, hx]
    rw [ih]
    simp

theorem decodeSlice_strings (items : List String) (cur : GoSlice String) :
    decodeSlice "" decodeString .stringSlice cur (.arr (items.map Json.str)) none
      = (.elems items, none) := by
  have h := decodeSlice_strings_foldl items []
  simp only [decodeSlice]
  simp only [List.nil_append] at h
  rw [h]

theorem decodeRequestBody_requestBody (toAdd toRemove : List String) :
    decodeRequestBody (some (requestBody toAdd toRemove))
      = .ok ⟨.elems toAdd, .elems toRemove⟩ := by
  have hadd : fieldFor ["add", "remove"] "add" = some "add" := by decide
  have hrem : fieldFor ["add", "remove"] "remove" = some "remove" := by decide
  have hne : ¬ ("remove" = "add") := by decide
  simp [decodeRequestBody, decodeRequestData, requestBody, hadd, hrem, hne,
    decodeSlice_strings]

theorem scanSegmentsJSON_absent (db : DB) (userID : String)
    (h : selectSegments db.users userID = none) :
    scanSegmentsJSON db none userID = .ok (some (.arr [])) := by
  simp [scanSegmentsJSON, queryRowScan, h]

theorem unmarshalUser_array (items : List Json) :
    unmarshalUser (some (.arr items)) = .error (.unmarshalTypeError "array" .user) := by
  simp [unmarshalUser, decodeUser, saveError, Json.kind]

/-! ## The delta written by `addUserToSegment` -/

/-- C1: with the request and the stored blob decoded and the upsert gone through,
`addUserToSegment` answers 204 and upserts the encoding of `newSegments`, and that list is
the decoded current list followed by one segment per slug of `ToAdd` in input order, with
exactly the segments whose slug is not in `ToRemove` kept, in their order. -/
theorem addUserToSegment_upserts_specApplyDelta (db : DB) (readFault : Option String)
    (userID : String) (body : Option Json) (requestData : RequestData) (segmentsJSON : Blob)
    (user : User)
    (hreq : decodeRequestBody body = .ok requestData)
    (hscan : scanSegmentsJSON db readFault userID = .ok segmentsJSON)
    (huser : unmarshalUser segmentsJSON = .ok user) :
    addUserToSegment db readFault none userID body
      = (⟨StatusNoContent, .empty⟩,
         ⟨upsertRow db.users userID
            (some (marshalSegments (newSegments user.Segments requestData))), db.segments⟩)
    ∧ (newSegments user.Segments requestData).toList
      = specApplyDelta user.Segments.toList requestData.ToAdd.toList
          requestData.ToRemove.toList :=
  ⟨addUserToSegment_success db readFault userID body requestData segmentsJSON user
      hreq hscan huser,
    newSegments_toList user.Segments requestData⟩

/-- C1 at a concrete input: user `u1` holding `a`, `b`, `a`, with add `c`, `a` and remove
`b`. -/
theorem addUserToSegment_upserts_specApplyDelta_witness :
    addUserToSegment sampleStore none none "u1" (some (requestBody ["c", "a"] ["b"]))
      = (⟨StatusNoContent, .empty⟩,
         ⟨upsertRow sampleStore.users "u1"
            (some (marshalSegments (newSegments (.elems [⟨"a"⟩, ⟨"b"⟩, ⟨"a"⟩])
              ⟨.elems ["c", "a"], .elems ["b"]⟩))), sampleStore.segments⟩)
    ∧ (newSegments (.elems [⟨"a"⟩, ⟨"b"⟩, ⟨"a"⟩]) ⟨.elems ["c", "a"], .elems ["b"]⟩).toList
      = specApplyDelta [⟨"a"⟩, ⟨"b"⟩, ⟨"a"⟩] ["c", "a"] ["b"] :=
  addUserToSegment_upserts_specApplyDelta sampleStore none "u1"
    (some (requestBody ["c", "a"] ["b"])) ⟨.elems ["c", "a"], .elems ["b"]⟩
    (some (userObject "u1" ["a", "b", "a"])) ⟨"u1", .elems [⟨"a"⟩, ⟨"b"⟩, ⟨"a"⟩]⟩
    rfl rfl rfl

/-- C2: the list written by `addUserToSegment` holds no segment whose slug occurs in
`ToRemove`, whether the segment was stored before or was just appended from `ToAdd`. -/
theorem newSegments_excludes_toRemove (current : GoSlice Segment) (requestData : RequestData)
    (s : Segment) (hs : s ∈ (newSegments current requestData).toList) :
    s.Slug ∉ requestData.ToRemove.toList := by
  rw [newSegments_toList] at hs
  unfold specApplyDelta at hs
  simpa using (List.mem_filter.mp hs).2

/-- C2 at concrete inputs: `a`, `b`, `a` with remove `a` leaves `b`, whose slug is not
removed; add `a` with remove `a` on an empty list leaves nothing. -/
theorem newSegments_excludes_toRemove_witness :
    (newSegments (.elems [⟨"a"⟩, ⟨"b"⟩, ⟨"a"⟩]) ⟨.nil, .elems ["a"]⟩).toList = [⟨"b"⟩]
    ∧ (newSegments .nil ⟨.elems ["a"], .elems ["a"]⟩).toList = []
    ∧ (Segment.mk "b").Slug ∉ (RequestData.mk .nil (.elems ["a"])).ToRemove.toList :=
  ⟨by decide, by decide,
    newSegments_excludes_toRemove (.elems [⟨"a"⟩, ⟨"b"⟩, ⟨"a"⟩]) ⟨.nil, .elems ["a"]⟩ ⟨"b"⟩
      (by decide)⟩

/-- C5: additions are not deduplicated: for a slug `x` not in `ToRemove`, the written list
has as many entries of slug `x` as the current list has, plus one per occurrence of `x` in
`ToAdd`. -/
theorem newSegments_count_slug (current : GoSlice Segment) (requestData : RequestData)
    (x : String) (hx : x ∉ requestData.ToRemove.toList) :
    (newSegments current requestData).toList.countP (fun s => decide (s.Slug = x))
      = current.toList.countP (fun s => decide (s.Slug = x))
        + requestData.ToAdd.toList.count x := by
  rw [newSegments_toList]
  unfold specApplyDelta
  rw [List.countP_filter]
  have hcongr : ∀ l : List Segment,
      l.countP (fun s => decide (s.Slug = x) && decide (s.Slug ∉ requestData.ToRemove.toList))
        = l.countP (fun s => decide (s.Slug = x)) := by
    intro l
    apply List.countP_congr
    intro s _
    by_cases h : s.Slug = x
    · simp [h, hx]
    · simp [h]
  rw [hcongr, List.countP_append, List.countP_map]
  rfl

/-- C5 at a concrete input: add `x`, `x` on an empty list gives two entries of slug `x`. -/
theorem newSegments_count_slug_witness :
    (newSegments .nil ⟨.elems ["x", "x"], .nil⟩).toList = [⟨"x"⟩, ⟨"x"⟩]
    ∧ (newSegments .nil ⟨.elems ["x", "x"], .nil⟩).toList.countP
        (fun s => decide (s.Slug = "x"))
      = (GoSlice.nil : GoSlice Segment).toList.countP (fun s => decide (s.Slug = "x"))
        + (RequestData.mk (.elems ["x", "x"]) .nil).ToAdd.toList.count "x" :=
  ⟨by decide, newSegments_count_slug .nil ⟨.elems ["x", "x"], .nil⟩ "x" (by decide)⟩

/-! ## Reading a user without a record -/

/-- C3, as the code behaves: for a user id without a row, `getActiveSegments` replaces the
missing blob by the literal `[]`, the decode of that array into the `User` struct fails, and
the answer is 500 with the type error; with a failing read the answer is 500 as well. -/
theorem getActiveSegments_absent_user (db : DB) (userID : String)
    (h : selectSegments db.users userID = none) :
    getActiveSegments db none userID
      = httpError (.unmarshalTypeError "array" .user) StatusInternalServerError
    ∧ ∀ readFault, (getActiveSegments db readFault userID).status
        = StatusInternalServerError := by
  have h0 : getActiveSegments db none userID
      = httpError (.unmarshalTypeError "array" .user) StatusInternalServerError := by
    simp [getActiveSegments, scanSegmentsJSON_absent db userID h, unmarshalUser_array]
  refine ⟨h0, ?_⟩
  intro readFault
  cases readFault with
  | none => rw [h0]; rfl
  | some msg => simp [getActiveSegments, scanSegmentsJSON, queryRowScan, httpError]

/-- C3 at a concrete input: the id `nonexistent` on the empty store. -/
theorem getActiveSegments_absent_user_witness :
    getActiveSegments emptyStore none "nonexistent"
      = httpError (.unmarshalTypeError "array" .user) StatusInternalServerError
    ∧ ∀ readFault, (getActiveSegments emptyStore readFault "nonexistent").status
        = StatusInternalServerError :=
  getActiveSegments_absent_user emptyStore "nonexistent" rfl

/-- C4, as the code behaves: for a user id without a row and any slug list `toAdd`, the call
with add `toAdd` and remove empty answers 500 with the type error and leaves the store as
it was, and the read that follows answers 500 too. -/
theorem addUserToSegment_absent_user (db : DB) (userID : String) (toAdd : List String)
    (h : selectSegments db.users userID = none) :
    addUserToSegment db none none userID (some (requestBody toAdd []))
      = (httpError (.unmarshalTypeError "array" .user) StatusInternalServerError, db)
    ∧ getActiveSegments
        (addUserToSegment db none none userID (some (requestBody toAdd []))).2 none userID
      = httpError (.unmarshalTypeError "array" .user) StatusInternalServerError := by
  have h0 : addUserToSegment db none none userID (some (requestBody toAdd []))
      = (httpError (.unmarshalTypeError "array" .user) StatusInternalServerError, db) := by
    simp [addUserToSegment, decodeRequestBody_requestBody,
      scanSegmentsJSON_absent db userID h, unmarshalUser_array]
  refine ⟨h0, ?_⟩
  rw [h0]
  simp [getActiveSegments, scanSegmentsJSON_absent db userID h, unmarshalUser_array]

/-- C4 at a concrete input: user `u1` on the empty store with add `a`, `b`. -/
theorem addUserToSegment_absent_user_witness :
    addUserToSegment emptyStore none none "u1" (some (requestBody ["a", "b"] []))
      = (httpError (.unmarshalTypeError "array" .user) StatusInternalServerError, emptyStore)
    ∧ getActiveSegments
        (addUserToSegment emptyStore none none "u1" (some (requestBody ["a", "b"] []))).2
        none "u1"
      = httpError (.unmarshalTypeError "array" .user) StatusInternalServerError :=
  addUserToSegment_absent_user emptyStore "u1" ["a", "b"] rfl

/-! ## Failure leaves the store as it was -/

/-- C6: when a step of `addUserToSegment` fails (the request body does not decode, the read
reports an error, the blob read does not decode, or the upsert reports an error; the encode
step has no error case), the answer is 400 or 500 and the store is the store before the
call. -/
theorem addUserToSegment_all_or_nothing (db : DB) (readFault writeFault : Option String)
    (userID : String) (body : Option Json)
    (hfail : (∃ e, decodeRequestBody body = .error e)
      ∨ (∃ e, scanSegmentsJSON db readFault userID = .error e)
      ∨ (∃ segmentsJSON e, scanSegmentsJSON db readFault userID = .ok segmentsJSON
          ∧ unmarshalUser segmentsJSON = .error e)
      ∨ (∃ msg, writeFault = some msg)) :
    ((addUserToSegment db readFault writeFault userID body).1.status = StatusBadRequest
      ∨ (addUserToSegment db readFault writeFault userID body).1.status
          = StatusInternalServerError)
    ∧ (addUserToSegment db readFault writeFault userID body).2 = db := by
  unfold addUserToSegment
  cases hreq : decodeRequestBody body with
  | error e => simp [httpError]
  | ok requestData =>
    cases hscan : scanSegmentsJSON db readFault userID with
    | error e => simp [httpError]
    | ok segmentsJSON =>
      cases huser : unmarshalUser segmentsJSON with
      | error e => simp [httpError, huser]
      | ok user =>
        cases writeFault with
        | some msg => simp [httpError, execUpsert, huser]
        | none =>
          exfalso
          rcases hfail with ⟨e, he⟩ | ⟨e, he⟩ | ⟨blob, e, hb, he⟩ | ⟨msg, hm⟩
          · rw [hreq] at he; cases he
          · rw [hscan] at he; cases he
          · rw [hscan] at hb
            cases hb
            rw [huser] at he
            cases he
          · cases hm

/-- C6 at a concrete input: the upsert fails for user `u1` of the sample store. -/
theorem addUserToSegment_all_or_nothing_witness :
    ((addUserToSegment sampleStore none (some "connection lost") "u1"
        (some (requestBody ["c"] ["a"]))).1.status = StatusBadRequest
      ∨ (addUserToSegment sampleStore none (some "connection lost") "u1"
        (some (requestBody ["c"] ["a"]))).1.status = StatusInternalServerError)
    ∧ (addUserToSegment sampleStore none (some "connection lost") "u1"
        (some (requestBody ["c"] ["a"]))).2 = sampleStore :=
  addUserToSegment_all_or_nothing sampleStore none (some "connection lost") "u1"
    (some (requestBody ["c"] ["a"]))
    (Or.inr (Or.inr (Or.inr ⟨"connection lost", rfl⟩)))

/-! ## Deleting a segment -/

/-- C7: `deleteSegment` leaves the users table as it was, whatever the slug and whether or
not the statement goes through. -/
theorem deleteSegment_users_unchanged (db : DB) (fault : Option String) (slug : String) :
    (deleteSegment db fault slug).2.users = db.users := by
  cases fault <;> simp [deleteSegment, execDeleteSegment]

/-- C8: for a slug that is not in the catalog, the `DELETE` statement removes no row, and
`deleteSegment` answers 204 and leaves the store, its catalog included, as it was. -/
theorem deleteSegment_absent_slug (db : DB) (slug : String) (h : slug ∉ db.segments) :
    deleteSegment db none slug = (⟨StatusNoContent, .empty⟩, db) := by
  have hfilter : db.segments.filter (fun s => decide (s ≠ slug)) = db.segments := by
    rw [List.filter_eq_self]
    intro s hs
    have hne : s ≠ slug := fun heq => h (heq ▸ hs)
    simpa using hne
  simp only [deleteSegment, execDeleteSegment, hfilter]

/-- C8 at a concrete input: slug `z` on the sample store, whose catalog is `a`, `b`. -/
theorem deleteSegment_absent_slug_witness :
    deleteSegment sampleStore none "z" = (⟨StatusNoContent, .empty⟩, sampleStore) :=
  deleteSegment_absent_slug sampleStore "z" (by decide)

/-! ## The stored representation -/

/-- C9, as the code behaves: the blob encoded for a nil list (`null`) decodes to a user with
no segments, and the blob encoded for any other list, an array, is refused by the decode
step with a type error, since that step decodes into the `User` struct. -/
theorem unmarshalUser_marshalSegments (segments : GoSlice Segment) :
    unmarshalUser (some (marshalSegments segments))
      = match segments with
        | .nil => .ok ⟨"", .nil⟩
        | .elems _ => .error (.unmarshalTypeError "array" .user) := by
  cases segments with
  | nil => rfl
  | elems xs => simp [marshalSegments, unmarshalUser_array]

/-- C9 at the failing input: the list of the one segment `a`. -/
theorem unmarshalUser_marshalSegments_singleton :
    marshalSegments (.elems [⟨"a"⟩]) = .arr [.obj [("slug", .str "a")]]
    ∧ unmarshalUser (some (marshalSegments (.elems [⟨"a"⟩])))
      = .error (.unmarshalTypeError "array" .user) :=
  ⟨rfl, unmarshalUser_marshalSegments (.elems [⟨"a"⟩])⟩

/-! ## A delta that leaves no segment -/

/-- C10 as stated fails: removing `a`, `b` from user `u1` of the sample store succeeds and
leaves no segment; the row of `u1` is kept, and its blob is JSON `null`, not the empty
array. -/
theorem addUserToSegment_empty_stores_null :
    (newSegments (.elems [⟨"a"⟩, ⟨"b"⟩, ⟨"a"⟩]) ⟨.elems [], .elems ["a", "b"]⟩).toList = []
    ∧ addUserToSegment sampleStore none none "u1" (some (requestBody [] ["a", "b"]))
      = (⟨StatusNoContent, .empty⟩, ⟨[("u1", some .null)], ["a", "b"]⟩)
    ∧ Json.null ≠ Json.arr [] :=
  ⟨by decide, rfl, by intro h; cases h⟩

/-- C10 as amended: when the delta leaves no segment and the upsert goes through,
`addUserToSegment` answers 204 and upserts the row of the user with the encoding of the nil
list, JSON `null`; the row is there afterwards and its blob decodes to a user without
segments. -/
theorem addUserToSegment_empty_delta (db : DB) (readFault : Option String)
    (userID : String) (body : Option Json) (requestData : RequestData) (segmentsJSON : Blob)
    (user : User)
    (hreq : decodeRequestBody body = .ok requestData)
    (hscan : scanSegmentsJSON db readFault userID = .ok segmentsJSON)
    (huser : unmarshalUser segmentsJSON = .ok user)
    (hempty : (newSegments user.Segments requestData).toList = []) :
    addUserToSegment db readFault none userID body
      = (⟨StatusNoContent, .empty⟩, ⟨upsertRow db.users userID (some .null), db.segments⟩)
    ∧ selectSegments (addUserToSegment db readFault none userID body).2.users userID
      = some (some .null)
    ∧ unmarshalUser (some .null) = .ok ⟨"", .nil⟩ := by
  have h0 : addUserToSegment db readFault none userID body
      = (⟨StatusNoContent, .empty⟩,
         ⟨upsertRow db.users userID (some .null), db.segments⟩) := by
    rw [addUserToSegment_success db readFault userID body requestData segmentsJSON user
      hreq hscan huser, newSegments_eq_nil user.Segments requestData hempty]
    rfl
  refine ⟨h0, ?_, rfl⟩
  rw [h0]
  exact selectSegments_upsertRow db.users userID (some .null)

/-- C10 as amended, at a concrete input: user `u1` of the sample store with remove `a`,
`b`. -/
theorem addUserToSegment_empty_delta_witness :
    addUserToSegment sampleStore none none "u1" (some (requestBody [] ["a", "b"]))
      = (⟨StatusNoContent, .empty⟩,
         ⟨upsertRow sampleStore.users "u1" (some .null), sampleStore.segments⟩)
    ∧ selectSegments
        (addUserToSegment sampleStore none none "u1"
          (some (requestBody [] ["a", "b"]))).2.users "u1"
      = some (some .null)
    ∧ unmarshalUser (some .null) = .ok ⟨"", .nil⟩ :=
  addUserToSegment_empty_delta sampleStore none "u1" (some (requestBody [] ["a", "b"]))
    ⟨.elems [], .elems ["a", "b"]⟩ (some (userObject "u1" ["a", "b", "a"]))
    ⟨"u1", .elems [⟨"a"⟩, ⟨"b"⟩, ⟨"a"⟩]⟩ rfl rfl rfl (by decide)

end UserSegment
